import Mathlib

/-!
Shallow embedding of `src/util/http.go` (package `util` of kkkunny/wechat).

Modelling conventions:
* Bytes (`[]byte`, response bodies, buffers) are `List Nat`.
* The transport (the `http.Client` built by `httpClient()`) is an oracle
  `World : Request → Except String HttpResponse`: `client.Get(uri)` issues
  `getReq uri`, `client.Post(uri, ct, buf)` issues `postReq uri ct body`.
  A transport-level failure is the `Except.error` case.
* The JSON / XML codecs are external collaborators, so they are abstract
  parameters: a `JsonCodec` carries the default encoder (`encode`, HTML
  escaping on) and the encoder obtained after `SetEscapeHTML(false)`
  (`encodeNoHtmlEscape`); decoders are plain parameters
  `List Nat → Except String V`.
* Each helper is instrumented to return, besides its Go result, the list of
  HTTP requests it issued, so "the request is never sent" is `trace = []`.
* The MIME multipart encoder is abstract at the part level: a request body is
  either raw bytes or a boundary together with an ordered list of parts, each
  part holding its two header values and its payload, exactly the data the Go
  code feeds `CreatePart` / `io.Copy`.  The possibility that constructing a
  part fails (`CreatePart` or the payload copy erroring) is an oracle
  `MultipartFormField → Option String`.
* The filesystem used by `GetFile` is an association list
  `List (String × List Nat)`; `os.Create` followed by a full `io.Copy` is a
  single shadowing update; `os.Create` failing is an oracle
  `String → Option String`.
* `time.Duration` is `Int` (Go `int64` nanoseconds); the two package-level
  variables `TimeOut` and `Proxy` form the `GlobalConfig` record and the two
  setters are state transformers on it.
-/

namespace WechatUtil

/-- An HTTP response as the helpers observe it: status code and body bytes. -/
structure HttpResponse where
  statusCode : Nat
  body : List Nat
  deriving Repr, DecidableEq

/-- One MIME part as handed to the multipart writer: the two header values set
via `textproto.MIMEHeader` and the payload bytes copied into the part. -/
structure MimePart where
  contentDisposition : String
  contentType : String
  value : List Nat
  deriving Repr, DecidableEq

/-- A request body: raw bytes (GET / the JSON and XML posts) or a multipart
body with its boundary and ordered parts. -/
inductive ReqBody where
  | raw (data : List Nat)
  | multipart (boundary : String) (parts : List MimePart)
  deriving Repr, DecidableEq

/-- An HTTP request as issued through the client. -/
structure Request where
  method : String
  uri : String
  contentType : String
  body : ReqBody
  deriving Repr, DecidableEq

/-- The request `client.Get(uri)` issues. -/
def getReq (uri : String) : Request :=
  { method := "GET", uri := uri, contentType := "", body := ReqBody.raw [] }

/-- The request `client.Post(uri, contentType, buf)` issues. -/
def postReq (uri contentType : String) (body : ReqBody) : Request :=
  { method := "POST", uri := uri, contentType := contentType, body := body }

/-- The transport oracle: what the network answers for each request. -/
abbrev World : Type := Request → Except String HttpResponse

/-- Error taxonomy of the package (in Go all of these are plain `error`
values; `unexpectedStatus` is the `fmt.Errorf` carrying the URI and the
status code). -/
inductive HErr where
  | transport (msg : String)
  | unexpectedStatus (uri : String) (statusCode : Nat)
  | encoding (msg : String)
  | decoding (msg : String)
  | ioErr (msg : String)
  deriving Repr, DecidableEq

/-- Wrap a collaborator decode result into the package error taxonomy. -/
def decodeOr {V : Type} (tag : String → HErr) (r : Except String V) : Except HErr V :=
  match r with
  | Except.error e => Except.error (tag e)
  | Except.ok v => Except.ok v

/-- The JSON codec collaborator: the default `json.NewEncoder` and the one
obtained after `enc.SetEscapeHTML(false)`. -/
structure JsonCodec (Obj : Type) where
  encode : Obj → Except String (List Nat)
  encodeNoHtmlEscape : Obj → Except String (List Nat)

/-- The XML codec collaborator (`xml.NewEncoder`). -/
structure XmlCodec (Obj : Type) where
  encode : Obj → Except String (List Nat)

/-- A proxy selector, Go `func(*http.Request) (*url.URL, error)`; the URL is
abstracted to its string form. -/
abbrev ProxyFn : Type := Request → Except String String

/-- The two package-level mutable variables of `util`: `TimeOut` (default one
minute) and `Proxy` (default `nil`, here `none`). -/
structure GlobalConfig where
  TimeOut : Int
  Proxy : Option ProxyFn

/-- Initial state of the package-level variables: 60 seconds (in nanoseconds,
as Go durations are counted) and no proxy. -/
def initialConfig : GlobalConfig :=
  { TimeOut := 60 * 1000000000, Proxy := none }

/-- Go `SetTimeOut(d)`: assigns the package variable `TimeOut`. -/
def SetTimeOut (d : Int) (g : GlobalConfig) : GlobalConfig :=
  { g with TimeOut := d }

/-- Go `SetProxy(p)`: assigns the package variable `Proxy`. -/
def SetProxy (p : Option ProxyFn) (g : GlobalConfig) : GlobalConfig :=
  { g with Proxy := p }

/-- Go `GetJson(uri, v)`: GET, then JSON-decode the body into `v` with no
status check; the decoded value replaces the out-parameter `v`. -/
def GetJson {V : Type} (W : World) (jsonDec : List Nat → Except String V)
    (uri : String) : Except HErr V × List Request :=
  match W (getReq uri) with
  | Except.error e => (Except.error (HErr.transport e), [getReq uri])
  | Except.ok r => (decodeOr HErr.decoding (jsonDec r.body), [getReq uri])

/-- Go `GetXml(uri, v)`: GET, then XML-decode the body with no status check. -/
def GetXml {V : Type} (W : World) (xmlDec : List Nat → Except String V)
    (uri : String) : Except HErr V × List Request :=
  match W (getReq uri) with
  | Except.error e => (Except.error (HErr.transport e), [getReq uri])
  | Except.ok r => (decodeOr HErr.decoding (xmlDec r.body), [getReq uri])

/-- Go `GetBody(uri)`: GET, fail with the status error unless the code is 200,
otherwise return the whole body. -/
def GetBody (W : World) (uri : String) : Except HErr (List Nat) × List Request :=
  match W (getReq uri) with
  | Except.error e => (Except.error (HErr.transport e), [getReq uri])
  | Except.ok resp =>
    if resp.statusCode ≠ 200 then
      (Except.error (HErr.unexpectedStatus uri resp.statusCode), [getReq uri])
    else
      (Except.ok resp.body, [getReq uri])

/-- Go `PostJson(uri, obj)`: encode `obj` with HTML escaping disabled, POST it
with content type `application/json;charset=utf-8`, require status 200, return
the body bytes. -/
def PostJson {Obj : Type} (W : World) (jc : JsonCodec Obj) (uri : String)
    (obj : Obj) : Except HErr (List Nat) × List Request :=
  match jc.encodeNoHtmlEscape obj with
  | Except.error e => (Except.error (HErr.encoding e), [])
  | Except.ok buf =>
    let req := postReq uri "application/json;charset=utf-8" (ReqBody.raw buf)
    match W req with
    | Except.error e => (Except.error (HErr.transport e), [req])
    | Except.ok resp =>
      if resp.statusCode ≠ 200 then
        (Except.error (HErr.unexpectedStatus uri resp.statusCode), [req])
      else
        (Except.ok resp.body, [req])

/-- Go `PostJsonPtr(uri, obj, result, contentType...)`: encode `obj` with the
default encoder (the `SetEscapeHTML(false)` line is commented out), pick the
content type (`strings.Join(contentType, ";")` when the variadic list is
non-empty, else the JSON default), POST, require status 200, then JSON-decode
the response into `result`. -/
def PostJsonPtr {Obj V : Type} (W : World) (jc : JsonCodec Obj)
    (jsonDec : List Nat → Except String V) (uri : String) (obj : Obj)
    (contentType : List String) : Except HErr V × List Request :=
  match jc.encode obj with
  | Except.error e => (Except.error (HErr.encoding e), [])
  | Except.ok buf =>
    let ct := if contentType.length > 0 then String.intercalate ";" contentType
              else "application/json;charset=utf-8"
    let req := postReq uri ct (ReqBody.raw buf)
    match W req with
    | Except.error e => (Except.error (HErr.transport e), [req])
    | Except.ok resp =>
      if resp.statusCode ≠ 200 then
        (Except.error (HErr.unexpectedStatus uri resp.statusCode), [req])
      else
        (decodeOr HErr.decoding (jsonDec resp.body), [req])

/-- Go `PostXmlPtr(uri, obj, result)`: XML-encode `obj`, POST with content type
`application/xml;charset=utf-8`, require status 200, XML-decode the response. -/
def PostXmlPtr {Obj V : Type} (W : World) (xc : XmlCodec Obj)
    (xmlDec : List Nat → Except String V) (uri : String) (obj : Obj) :
    Except HErr V × List Request :=
  match xc.encode obj with
  | Except.error e => (Except.error (HErr.encoding e), [])
  | Except.ok buf =>
    let req := postReq uri "application/xml;charset=utf-8" (ReqBody.raw buf)
    match W req with
    | Except.error e => (Except.error (HErr.transport e), [req])
    | Except.ok resp =>
      if resp.statusCode ≠ 200 then
        (Except.error (HErr.unexpectedStatus uri resp.statusCode), [req])
      else
        (decodeOr HErr.decoding (xmlDec resp.body), [req])

/-- Go struct `MultipartFormField`, field order as in the source. -/
structure MultipartFormField where
  Fieldname : String
  Value : List Nat
  ContentType : String
  Filename : String
  deriving Repr, DecidableEq

/-- The `Content-Disposition` header value built by the `fmt.Sprintf` in
`PostMultipartForm`. -/
def contentDispositionOf (field : MultipartFormField) : String :=
  "form-data; name=\"" ++ field.Fieldname ++ "\"; filename=\"" ++
    field.Filename ++ "\"; filelength=" ++ toString field.Value.length

/-- The MIME part `PostMultipartForm` emits for one field: the two headers set
on the `textproto.MIMEHeader` and the bytes copied from `field.Value`. -/
def partOf (field : MultipartFormField) : MimePart :=
  { contentDisposition := contentDispositionOf field
    contentType := field.ContentType
    value := field.Value }

/-- The loop of `PostMultipartForm`: build one part per field in order; the
oracle `createPartErr` says whether constructing the part for a given field
fails (`CreatePart` or the `io.Copy` of the payload erroring), in which case
the first such error aborts the loop. -/
def buildParts (createPartErr : MultipartFormField → Option String) :
    List MultipartFormField → Except String (List MimePart)
  | [] => Except.ok []
  | f :: fs =>
    match createPartErr f with
    | some e => Except.error e
    | none =>
      match buildParts createPartErr fs with
      | Except.error e => Except.error e
      | Except.ok ps => Except.ok (partOf f :: ps)

/-- Go `(*multipart.Writer).FormDataContentType()` for a plain boundary. -/
def formDataContentType (boundary : String) : String :=
  "multipart/form-data; boundary=" ++ boundary

/-- Go `PostMultipartForm(fields, uri)`.  The result mirrors the Go pair
`(respBody []byte, err error)` as `Option` values so that the non-200 branch,
which in the source is `return nil, err` with `err` still `nil`, is the
distinguishable pair `(none, none)`. -/
def PostMultipartForm (W : World) (boundary : String)
    (createPartErr : MultipartFormField → Option String)
    (fields : List MultipartFormField) (uri : String) :
    (Option (List Nat) × Option HErr) × List Request :=
  match buildParts createPartErr fields with
  | Except.error e => ((none, some (HErr.ioErr e)), [])
  | Except.ok parts =>
    let req := postReq uri (formDataContentType boundary)
      (ReqBody.multipart boundary parts)
    match W req with
    | Except.error e => ((none, some (HErr.transport e)), [req])
    | Except.ok resp =>
      if resp.statusCode ≠ 200 then
        ((none, none), [req])
      else
        ((some resp.body, none), [req])

/-- Go `PostFileBytes(fieldname, filename, contentType, data, uri)`: wrap the
arguments into a single `MultipartFormField` and delegate. -/
def PostFileBytes (W : World) (boundary : String)
    (createPartErr : MultipartFormField → Option String)
    (fieldname filename contentType : String) (data : List Nat)
    (uri : String) : (Option (List Nat) × Option HErr) × List Request :=
  let fields : List MultipartFormField :=
    [{ Fieldname := fieldname, Value := data, ContentType := contentType,
       Filename := filename }]
  PostMultipartForm W boundary createPartErr fields uri

/-- The filesystem as an association list from path to contents; a fresh entry
shadows older ones. -/
abbrev Fs : Type := List (String × List Nat)

/-- `os.Create` followed by a complete `io.Copy` of the body: create or
truncate the file at `name` and leave it holding `data`. -/
def fsSet (fs : Fs) (name : String) (data : List Nat) : Fs :=
  (name, data) :: fs

/-- Go `GetFile(filename, uri)`: GET the URI (returning the transport error
first, before touching the filesystem), then create the destination file and
copy the whole body into it, with no status-code check.  `createErr` is the
oracle for `os.Create` failing. -/
def GetFile (W : World) (createErr : String → Option String) (fs : Fs)
    (filename uri : String) : Except HErr Unit × Fs :=
  match W (getReq uri) with
  | Except.error e => (Except.error (HErr.transport e), fs)
  | Except.ok resp =>
    match createErr filename with
    | some e => (Except.error (HErr.ioErr e), fs)
    | none => (Except.ok (), fsSet fs filename resp.body)

/-! Concrete fixtures for witnesses and counterexamples. -/

/-- A server that answers every request with status 404 and body `[53]`. -/
def W404 : World := fun _ => Except.ok { statusCode := 404, body := [53] }

/-- A server that answers every request with status 200 and body `[7, 8]`. -/
def W200 : World := fun _ => Except.ok { statusCode := 200, body := [7, 8] }

/-- A transport that fails every request. -/
def Wfail : World := fun _ => Except.error "boom"

/-- A decoder that always succeeds, returning the body length. -/
def decLen : List Nat → Except String Nat := fun b => Except.ok b.length

/-- `os.Create` never fails. -/
def noCreateErr : String → Option String := fun _ => none

/-- Part construction never fails. -/
def noPartErr : MultipartFormField → Option String := fun _ => none

/-- Part construction always fails. -/
def failPartErr : MultipartFormField → Option String := fun _ => some "parterr"

/-- A JSON codec on `Nat` objects whose two encoders always succeed (and
differ, so uses of the two are distinguishable). -/
def jc0 : JsonCodec Nat :=
  { encode := fun n => Except.ok [n], encodeNoHtmlEscape := fun n => Except.ok [n, n] }

/-- An XML codec on `Nat` objects whose encoder always succeeds. -/
def xc0 : XmlCodec Nat := { encode := fun n => Except.ok [n + 1] }

/-- A JSON codec whose encoders always fail. -/
def jcBad : JsonCodec Nat :=
  { encode := fun _ => Except.error "jerr", encodeNoHtmlEscape := fun _ => Except.error "jerr2" }

/-- An XML codec whose encoder always fails. -/
def xcBad : XmlCodec Nat := { encode := fun _ => Except.error "xerr" }

/-- The one-field example of the spec: field `f1`, file `a.txt`, content type
`text/plain`, payload the two bytes of "hi". -/
def field1 : MultipartFormField :=
  { Fieldname := "f1", Value := [104, 105], ContentType := "text/plain",
    Filename := "a.txt" }

/-! Theorems for the claims. -/

/-- Claim C3 (confirmed): for every URI, if the HTTP response has status 200
then `GetBody` returns exactly the body bytes the server sent; if the status
is not 200 it returns the error carrying the URI and the status code, and the
body is not returned. -/
theorem getBody_status (W : World) (uri : String) (resp : HttpResponse)
    (hW : W (getReq uri) = Except.ok resp) :
    (resp.statusCode = 200 → (GetBody W uri).1 = Except.ok resp.body) ∧
    (resp.statusCode ≠ 200 →
      (GetBody W uri).1 = Except.error (HErr.unexpectedStatus uri resp.statusCode)) := by
  constructor
  · intro h200
    simp [GetBody, hW, h200]
  · intro hne
    simp [GetBody, hW, hne]

/-- Witness for `getBody_status` at concrete servers with status 200 and 404. -/
theorem getBody_status_witness :
    (GetBody W200 "u").1 = Except.ok [7, 8] ∧
    (GetBody W404 "u").1 = Except.error (HErr.unexpectedStatus "u" 404) := by
  constructor
  · exact (getBody_status W200 "u" { statusCode := 200, body := [7, 8] } rfl).1 rfl
  · exact (getBody_status W404 "u" { statusCode := 404, body := [53] } rfl).2 (by decide)

/-- Claim C4 (confirmed): `PostJson` sends exactly one POST request whose body
is the HTML-escaping-disabled JSON encoding of the object and whose content
type is `application/json;charset=utf-8`, and on a 200 response it returns the
raw response body bytes. -/
theorem postJson_request_and_result {Obj : Type} (W : World) (jc : JsonCodec Obj)
    (uri : String) (obj : Obj) (buf : List Nat) (resp : HttpResponse)
    (henc : jc.encodeNoHtmlEscape obj = Except.ok buf)
    (hW : W (postReq uri "application/json;charset=utf-8" (ReqBody.raw buf)) =
      Except.ok resp)
    (h200 : resp.statusCode = 200) :
    (PostJson W jc uri obj).1 = Except.ok resp.body ∧
    (PostJson W jc uri obj).2 =
      [postReq uri "application/json;charset=utf-8" (ReqBody.raw buf)] := by
  constructor <;> simp [PostJson, henc, hW, h200]

/-- Witness for `postJson_request_and_result` on a concrete codec and server. -/
theorem postJson_request_and_result_witness :
    (PostJson W200 jc0 "u" 3).1 = Except.ok [7, 8] ∧
    (PostJson W200 jc0 "u" 3).2 =
      [postReq "u" "application/json;charset=utf-8" (ReqBody.raw [3, 3])] :=
  postJson_request_and_result W200 jc0 "u" 3 [3, 3]
    { statusCode := 200, body := [7, 8] } rfl rfl rfl

/-- Claim C2 (confirmed): if `PostMultipartForm`'s POST succeeds at the
transport level but the status code is not 200, it returns a `nil` body and a
`nil` error (no status error is constructed). -/
theorem postMultipartForm_nonOk_nil_nil (W : World) (boundary : String)
    (ce : MultipartFormField → Option String) (fields : List MultipartFormField)
    (uri : String) (parts : List MimePart) (resp : HttpResponse)
    (hparts : buildParts ce fields = Except.ok parts)
    (hW : W (postReq uri (formDataContentType boundary)
        (ReqBody.multipart boundary parts)) = Except.ok resp)
    (hst : resp.statusCode ≠ 200) :
    (PostMultipartForm W boundary ce fields uri).1 = (none, none) := by
  simp [PostMultipartForm, hparts, hW, hst]

/-- Witness for `postMultipartForm_nonOk_nil_nil` on a concrete 404 server. -/
theorem postMultipartForm_nonOk_nil_nil_witness :
    (PostMultipartForm W404 "B" noPartErr [] "u").1 = (none, none) :=
  postMultipartForm_nonOk_nil_nil W404 "B" noPartErr [] "u" []
    { statusCode := 404, body := [53] } rfl rfl (by decide)

/-- Claim C8 (confirmed): `PostFileBytes` returns exactly the result of
`PostMultipartForm` on the single-element field sequence built from its
arguments and the same URI. -/
theorem postFileBytes_delegates (W : World) (boundary : String)
    (ce : MultipartFormField → Option String)
    (fieldname filename contentType : String) (data : List Nat) (uri : String) :
    PostFileBytes W boundary ce fieldname filename contentType data uri =
      PostMultipartForm W boundary ce
        [{ Fieldname := fieldname, Value := data, ContentType := contentType,
           Filename := filename }] uri := rfl

/-- Claim C9 (confirmed): `SetTimeOut` changes only the `TimeOut` field of the
global configuration and leaves `Proxy` unchanged; `SetProxy` changes only
`Proxy` and leaves `TimeOut` unchanged. -/
theorem setters_frame (d : Int) (p : Option ProxyFn) (g : GlobalConfig) :
    (SetTimeOut d g).TimeOut = d ∧ (SetTimeOut d g).Proxy = g.Proxy ∧
    (SetProxy p g).Proxy = p ∧ (SetProxy p g).TimeOut = g.TimeOut :=
  ⟨rfl, rfl, rfl, rfl⟩

/-- Claim C10 (confirmed): if the GET fails at the transport level, `GetFile`
returns that error with the filesystem untouched; the destination is only
created or modified when the HTTP response was actually obtained. -/
theorem getFile_transport_before_create (W : World)
    (createErr : String → Option String) (fs : Fs) (filename uri : String) :
    (∀ e, W (getReq uri) = Except.error e →
      GetFile W createErr fs filename uri = (Except.error (HErr.transport e), fs)) ∧
    ((GetFile W createErr fs filename uri).2 ≠ fs →
      ∃ resp, W (getReq uri) = Except.ok resp) := by
  constructor
  · intro e h
    simp [GetFile, h]
  · intro h
    cases hw : W (getReq uri) with
    | error e =>
      exact absurd (by simp [GetFile, hw]) h
    | ok resp =>
      exact ⟨resp, rfl⟩


/-- Witness for `getFile_transport_before_create`: a failing transport leaves
the filesystem empty, and a responding server is obtainable. -/
theorem getFile_transport_before_create_witness :
    GetFile Wfail noCreateErr [] "f" "u" = (Except.error (HErr.transport "boom"), []) ∧
    (∃ resp, W404 (getReq "u") = Except.ok resp) := by
  constructor
  · exact (getFile_transport_before_create Wfail noCreateErr [] "f" "u").1 "boom" rfl
  · exact (getFile_transport_before_create W404 noCreateErr [] "f" "u").2 (by decide)

/-- Helper: once the default JSON encoding succeeded, `PostJsonPtr` issues
exactly one request, with the selected content type and the encoded buffer. -/
lemma postJsonPtr_trace_of_encode {Obj V : Type} (W : World) (jc : JsonCodec Obj)
    (jsonDec : List Nat → Except String V) (uri : String) (obj : Obj)
    (cts : List String) (buf : List Nat)
    (henc : jc.encode obj = Except.ok buf) :
    (PostJsonPtr W jc jsonDec uri obj cts).2 =
      [postReq uri (if cts.length > 0 then String.intercalate ";" cts
                    else "application/json;charset=utf-8") (ReqBody.raw buf)] := by
  simp only [PostJsonPtr, henc]
  cases hw : W (postReq uri (if cts.length > 0 then String.intercalate ";" cts
      else "application/json;charset=utf-8") (ReqBody.raw buf)) with
  | error e => simp [hw]
  | ok resp =>
    by_cases hs : resp.statusCode = 200 <;> simp [hw, hs]

/-- Claim C5 (confirmed): `PostJsonPtr` posts the default-escaping JSON
encoding of the object; its content type is `application/json;charset=utf-8`
when no variadic content-type argument is given, and the given strings joined
with `;` otherwise. -/
theorem postJsonPtr_contentType {Obj V : Type} (W : World) (jc : JsonCodec Obj)
    (jsonDec : List Nat → Except String V) (uri : String) (obj : Obj)
    (cts : List String) (buf : List Nat)
    (henc : jc.encode obj = Except.ok buf) :
    (cts = [] → (PostJsonPtr W jc jsonDec uri obj cts).2 =
        [postReq uri "application/json;charset=utf-8" (ReqBody.raw buf)]) ∧
    (cts ≠ [] → (PostJsonPtr W jc jsonDec uri obj cts).2 =
        [postReq uri (String.intercalate ";" cts) (ReqBody.raw buf)]) := by
  have key := postJsonPtr_trace_of_encode W jc jsonDec uri obj cts buf henc
  constructor
  · intro h
    subst h
    simpa using key
  · intro h
    have hl : cts.length > 0 := List.length_pos.mpr h
    rw [key, if_pos hl]

/-- Witness for `postJsonPtr_contentType` with no override and with the
override `["a", "b"]`. -/
theorem postJsonPtr_contentType_witness :
    (PostJsonPtr W200 jc0 decLen "u" 3 ([] : List String)).2 =
      [postReq "u" "application/json;charset=utf-8" (ReqBody.raw [3])] ∧
    (PostJsonPtr W200 jc0 decLen "u" 3 ["a", "b"]).2 =
      [postReq "u" "a;b" (ReqBody.raw [3])] := by
  constructor
  · exact (postJsonPtr_contentType W200 jc0 decLen "u" 3 [] [3] rfl).1 rfl
  · have h := (postJsonPtr_contentType W200 jc0 decLen "u" 3 ["a", "b"] [3] rfl).2
      (by decide)
    rw [h]
    decide

/-- Claim C6 (confirmed): when encoding the outgoing payload fails, `PostJson`,
`PostJsonPtr` and `PostXmlPtr` return that encoding error and issue no HTTP
request at all (empty request trace). -/
theorem encodeError_no_request {Obj V : Type} (W : World) (jc : JsonCodec Obj)
    (xc : XmlCodec Obj) (jsonDec xmlDec : List Nat → Except String V)
    (uri : String) (obj : Obj) (cts : List String) (e : String) :
    (jc.encodeNoHtmlEscape obj = Except.error e →
      PostJson W jc uri obj = (Except.error (HErr.encoding e), [])) ∧
    (jc.encode obj = Except.error e →
      PostJsonPtr W jc jsonDec uri obj cts =
        ((Except.error (HErr.encoding e) : Except HErr V), [])) ∧
    (xc.encode obj = Except.error e →
      PostXmlPtr W xc xmlDec uri obj =
        ((Except.error (HErr.encoding e) : Except HErr V), [])) := by
  refine ⟨fun h => ?_, fun h => ?_, fun h => ?_⟩ <;>
    simp [PostJson, PostJsonPtr, PostXmlPtr, h]

/-- Witness for `encodeError_no_request` on always-failing codecs. -/
theorem encodeError_no_request_witness :
    PostJson W200 jcBad "u" 3 = (Except.error (HErr.encoding "jerr2"), []) ∧
    PostJsonPtr W200 jcBad decLen "u" 3 [] =
      ((Except.error (HErr.encoding "jerr") : Except HErr Nat), []) ∧
    PostXmlPtr W200 xcBad decLen "u" 3 =
      ((Except.error (HErr.encoding "xerr") : Except HErr Nat), []) := by
  refine ⟨?_, ?_, ?_⟩
  · exact (encodeError_no_request W200 jcBad xcBad decLen decLen "u" 3 [] "jerr2").1 rfl
  · exact (encodeError_no_request W200 jcBad xcBad decLen decLen "u" 3 [] "jerr").2.1 rfl
  · exact (encodeError_no_request W200 jcBad xcBad decLen decLen "u" 3 [] "xerr").2.2 rfl

/-- Helper: a successful `buildParts` yields exactly one part per field, in
order. -/
lemma buildParts_ok_eq (ce : MultipartFormField → Option String) :
    ∀ (fields : List MultipartFormField) (parts : List MimePart),
      buildParts ce fields = Except.ok parts → parts = fields.map partOf := by
  intro fields
  induction fields with
  | nil =>
    intro parts h
    simp only [buildParts] at h
    cases h
    rfl
  | cons f fs ih =>
    intro parts h
    simp only [buildParts] at h
    cases hce : ce f with
    | some e => rw [hce] at h; cases h
    | none =>
      rw [hce] at h
      cases hb : buildParts ce fs with
      | error e => rw [hb] at h; cases h
      | ok ps =>
        rw [hb] at h
        cases h
        simp [ih ps hb]

/-- Claim C7 (confirmed): `PostMultipartForm` encodes one part per field in the
given order, each carrying the `form-data; name=...; filename=...;
filelength=<byte length>` disposition, the field's content type and its raw
bytes; and when constructing any part fails the error is returned with no HTTP
request sent. -/
theorem postMultipartForm_parts (W : World) (boundary : String)
    (ce : MultipartFormField → Option String) (fields : List MultipartFormField)
    (uri : String) (parts : List MimePart) (e : String) :
    (buildParts ce fields = Except.ok parts →
      parts = fields.map (fun f =>
        { contentDisposition := "form-data; name=\"" ++ f.Fieldname ++
            "\"; filename=\"" ++ f.Filename ++ "\"; filelength=" ++
            toString f.Value.length
          contentType := f.ContentType
          value := f.Value }) ∧
      (PostMultipartForm W boundary ce fields uri).2 =
        [postReq uri (formDataContentType boundary)
          (ReqBody.multipart boundary parts)]) ∧
    (buildParts ce fields = Except.error e →
      PostMultipartForm W boundary ce fields uri =
        ((none, some (HErr.ioErr e)), [])) := by
  constructor
  · intro hok
    refine ⟨buildParts_ok_eq ce fields parts hok, ?_⟩
    simp only [PostMultipartForm, hok]
    cases hw : W (postReq uri (formDataContentType boundary)
        (ReqBody.multipart boundary parts)) with
    | error er => simp [hw]
    | ok resp =>
      by_cases hs : resp.statusCode = 200 <;> simp [hw, hs]
  · intro herr
    simp [PostMultipartForm, herr]

/-- Witness for `postMultipartForm_parts`: the one-field upload of the bytes
of "hi" yields exactly the part of the spec's example, and a failing part
construction aborts with no request. -/
theorem postMultipartForm_parts_witness :
    ([partOf field1] : List MimePart) =
      [{ contentDisposition := "form-data; name=\"f1\"; filename=\"a.txt\"; filelength=2",
         contentType := "text/plain", value := [104, 105] }] ∧
    (PostMultipartForm W200 "B" noPartErr [field1] "u").2 =
      [postReq "u" (formDataContentType "B")
        (ReqBody.multipart "B" [partOf field1])] ∧
    PostMultipartForm W200 "B" failPartErr [field1] "u" =
      ((none, some (HErr.ioErr "parterr")), []) := by
  have H := (postMultipartForm_parts W200 "B" noPartErr [field1] "u"
    [partOf field1] "parterr").1 rfl
  have H2 := (postMultipartForm_parts W200 "B" failPartErr [field1] "u"
    [] "parterr").2 rfl
  refine ⟨?_, H.2, H2⟩
  have h3 := H.1
  rw [h3]
  decide

/-- Counterexample to claim C1: against a server answering every request with
status 404, `GetJson` and `GetXml` decode the body and return the decoded
value (no `unexpectedStatus` error, a decode IS attempted), `GetFile` writes
the 404 body into the destination file and returns success, and
`PostFileBytes` returns a `nil` body with a `nil` error — so the claim that
all seven helpers return an `UnexpectedStatusError` on non-200 is false. -/
theorem c1_counterexample :
    W404 (getReq "u") = Except.ok { statusCode := 404, body := [53] } ∧
    (GetJson W404 decLen "u").1 = Except.ok 1 ∧
    (GetXml W404 decLen "u").1 = Except.ok 1 ∧
    GetFile W404 noCreateErr [] "f" "u" = (Except.ok (), [("f", [53])]) ∧
    (PostFileBytes W404 "B" noPartErr "fn" "fl" "ct" [1, 2] "u").1 =
      (none, none) := by
  refine ⟨rfl, rfl, rfl, rfl, ?_⟩
  decide

/-- Claim C1 as amended: on a response with status ≠ 200, only `PostJson`,
`PostJsonPtr` and `PostXmlPtr` return the `unexpectedStatus` error carrying
the actual status code (and attempt no decode of the body); `GetJson` and
`GetXml` ignore the status and decode the body regardless; `GetFile` ignores
the status and writes the body to the destination file; `PostMultipartForm`
(and hence `PostFileBytes`, which delegates to it) returns a `nil` body with a
`nil` error. -/
theorem c1_amended {Obj V : Type} (W : World) (jc : JsonCodec Obj)
    (xc : XmlCodec Obj) (jsonDec xmlDec : List Nat → Except String V)
    (uri : String) (obj : Obj) (cts : List String) (bufA bufB bufC : List Nat)
    (boundary : String) (ce : MultipartFormField → Option String)
    (fields : List MultipartFormField) (parts : List MimePart) (fs : Fs)
    (fn : String) (resp : HttpResponse)
    (hst : resp.statusCode ≠ 200)
    (hA : jc.encodeNoHtmlEscape obj = Except.ok bufA)
    (hB : jc.encode obj = Except.ok bufB)
    (hC : xc.encode obj = Except.ok bufC)
    (hparts : buildParts ce fields = Except.ok parts)
    (hG : W (getReq uri) = Except.ok resp)
    (hP1 : W (postReq uri "application/json;charset=utf-8" (ReqBody.raw bufA)) =
      Except.ok resp)
    (hP2 : W (postReq uri (if cts.length > 0 then String.intercalate ";" cts
        else "application/json;charset=utf-8") (ReqBody.raw bufB)) =
      Except.ok resp)
    (hP3 : W (postReq uri "application/xml;charset=utf-8" (ReqBody.raw bufC)) =
      Except.ok resp)
    (hP4 : W (postReq uri (formDataContentType boundary)
        (ReqBody.multipart boundary parts)) = Except.ok resp) :
    (PostJson W jc uri obj).1 =
      Except.error (HErr.unexpectedStatus uri resp.statusCode) ∧
    (PostJsonPtr W jc jsonDec uri obj cts).1 =
      Except.error (HErr.unexpectedStatus uri resp.statusCode) ∧
    (PostXmlPtr W xc xmlDec uri obj).1 =
      Except.error (HErr.unexpectedStatus uri resp.statusCode) ∧
    (GetJson W jsonDec uri).1 = decodeOr HErr.decoding (jsonDec resp.body) ∧
    (GetXml W xmlDec uri).1 = decodeOr HErr.decoding (xmlDec resp.body) ∧
    GetFile W noCreateErr fs fn uri = (Except.ok (), fsSet fs fn resp.body) ∧
    (PostMultipartForm W boundary ce fields uri).1 = (none, none) := by
  refine ⟨?_, ?_, ?_, ?_, ?_, ?_, ?_⟩
  · simp [PostJson, hA, hP1, hst]
  · simp [PostJsonPtr, hB, hP2, hst]
  · simp [PostXmlPtr, hC, hP3, hst]
  · simp [GetJson, hG]
  · simp [GetXml, hG]
  · simp [GetFile, hG, noCreateErr]
  · simp [PostMultipartForm, hparts, hP4, hst]

/-- Witness for `c1_amended` at the concrete 404 server and concrete codecs. -/
theorem c1_amended_witness :
    (PostJson W404 jc0 "u" 3).1 = Except.error (HErr.unexpectedStatus "u" 404) ∧
    (PostJsonPtr W404 jc0 decLen "u" 3 ([] : List String)).1 =
      Except.error (HErr.unexpectedStatus "u" 404) ∧
    (PostXmlPtr W404 xc0 decLen "u" 3).1 =
      Except.error (HErr.unexpectedStatus "u" 404) ∧
    (GetJson W404 decLen "u").1 = decodeOr HErr.decoding (decLen [53]) ∧
    (GetXml W404 decLen "u").1 = decodeOr HErr.decoding (decLen [53]) ∧
    GetFile W404 noCreateErr [] "f" "u" = (Except.ok (), fsSet [] "f" [53]) ∧
    (PostMultipartForm W404 "B" noPartErr [field1] "u").1 = (none, none) :=
  c1_amended W404 jc0 xc0 decLen decLen "u" 3 [] [3, 3] [3] [4] "B" noPartErr
    [field1] [partOf field1] [] "f" { statusCode := 404, body := [53] }
    (by decide) rfl rfl rfl rfl rfl rfl rfl rfl rfl

end WechatUtil
